import Mathlib

/-!
Shallow embedding of ForcePy's `ForceCategories.py` and `Analysis.py`,
with proofs about the neighbor-structure builders, the lazy neighbor-vector
generator, and the RDF / CoordNumber analyses.

Python floats are modelled as real numbers (cutoffs, where only comparison
arithmetic matters, as rationals); Python exceptions as an error type
threaded through `Except`; numpy arrays and Python lists as Lean lists.
-/

/-- Python exception kinds raised by the embedded code paths. -/
inductive PyErr where
  | assertionError
  | typeError
  | runtimeError
  | indexError
  | zeroDivisionError
  | attributeError
deriving DecidableEq

/-- Euclidean 3-vector with real components (`numpy` float triple). -/
@[ext]
structure Vec3 where
  x : ℝ
  y : ℝ
  z : ℝ

/-- The all-zeroes vector. -/
def Vec3.zero : Vec3 := ⟨0, 0, 0⟩

/-- Componentwise division of a vector by a scalar (numpy `r / d`). -/
noncomputable def Vec3.sdiv (v : Vec3) (c : ℝ) : Vec3 := ⟨v.x / c, v.y / c, v.z / c⟩

/-- Modelled from the spec: `ForcePy/Util.py` (`norm3`) is not under src/.
Spec 4.1: Euclidean norm of a 3-component vector. -/
noncomputable def norm3 (v : Vec3) : ℝ := Real.sqrt (v.x ^ 2 + v.y ^ 2 + v.z ^ 2)

/-- Modelled from the spec: `ForcePy/Util.py` (`min_img_vec`) is not under src/.
Spec 4.1, one component: when `periodic`, a raw difference exceeding half the
box length is moved by one box length; otherwise it is returned unchanged. -/
noncomputable def wrap1 (d box : ℝ) (periodic : Bool) : ℝ :=
  if periodic then
    if d > box / 2 then d - box
    else if d < -(box / 2) then d + box
    else d
  else d

/-- Modelled from the spec: `ForcePy/Util.py` (`min_img_vec`) is not under src/.
Spec 4.1: `a - b` adjusted componentwise into the nearest periodic image. -/
noncomputable def min_img_vec (a b : Vec3) (dims : Vec3) (periodic : Bool) : Vec3 :=
  ⟨wrap1 (a.x - b.x) dims.x periodic,
   wrap1 (a.y - b.y) dims.y periodic,
   wrap1 (a.z - b.z) dims.z periodic⟩

/-- A trajectory frame (the MDAnalysis universe `u` as read by this code):
particle positions, box dimensions, periodicity flag and bond list.
`u.atoms.get_positions()`, `u.trajectory.ts.dimensions`,
`u.trajectory.periodic`, `u.bonds` (each bond as the pair of its two
atom numbers). -/
structure Frame where
  positions : List Vec3
  dims : Vec3
  periodic : Bool
  bonds : List (ℕ × ℕ)

/-- Particle count, `u.atoms.numberOfAtoms()`. -/
def Frame.n (u : Frame) : ℕ := u.positions.length

/-- The mutable neighbor-structure part of a `ForceCategory` instance:
`self.nlist`, `self.nlist_lengths`, `self.nlist_ready`. -/
structure CatState where
  nlist : List ℕ
  nlist_lengths : List ℕ
  nlist_ready : Bool
deriving DecidableEq

/-- The contiguous slice of `nlist` holding particle `i`'s neighbors:
`nlist_accum = np.sum(self.nlist_lengths[:i]) if i > 0 else 0` followed by
`self.nlist[nlist_accum:(nlist_accum + self.nlist_lengths[i])]`
(Python slices clamp at the end of the list, as `drop`/`take` do). -/
def nlist_slice (st : CatState) (i : ℕ) : List ℕ :=
  (st.nlist.drop ((st.nlist_lengths.take i).sum)).take (st.nlist_lengths.getD i 0)

/-- Embeds `ForceCategory.generate_nlist`: asserts the neighbor list is ready
(`AssertionError` otherwise) and yields particle `i`'s neighbor slice. -/
def generate_nlist (st : CatState) (i : ℕ) : Except PyErr (List ℕ) :=
  if st.nlist_ready then .ok (nlist_slice st i) else .error .assertionError

/-- The guard `if(mask and not mask[j]): continue` of
`ForceCategory.generate_neighbor_vecs`: a `None` mask and an empty list are
both falsy, so nothing is skipped; otherwise neighbor `j` is skipped when
`mask[j]` is false.  (Python would raise `IndexError` for `j` beyond the end
of a non-empty mask; callers always pass per-particle masks covering every
neighbor index, so the default of `getD` is never reached in modelled runs.) -/
def maskSkip (mask : Option (List Bool)) (j : ℕ) : Bool :=
  match mask with
  | none => false
  | some m => !m.isEmpty && !(m.getD j true)

/-- One yielded triple of `ForceCategory.generate_neighbor_vecs`:
`r = min_img_vec(positions[j], positions[i], dims, periodic)`, `d = norm3(r)`,
`r = r if d == 0 else r / d`, yielding `(r, d, j)`. -/
noncomputable def nbr_triple (u : Frame) (i j : ℕ) : Vec3 × ℝ × ℕ :=
  let r := min_img_vec (u.positions.getD j Vec3.zero) (u.positions.getD i Vec3.zero)
    u.dims u.periodic
  let d := norm3 r
  (if d = 0 then r else r.sdiv d, d, j)

/-- The list of triples yielded by `ForceCategory.generate_neighbor_vecs`
for particle `i` once the neighbor slice is in hand: masked-out neighbors
are skipped, every other neighbor produces one triple. -/
noncomputable def nbr_vecs_list (st : CatState) (i : ℕ) (u : Frame)
    (mask : Option (List Bool)) : List (Vec3 × ℝ × ℕ) :=
  (nlist_slice st i).filterMap fun j =>
    if maskSkip mask j then none else some (nbr_triple u i j)

/-- Embeds `ForceCategory.generate_neighbor_vecs(i, u, mask)`: drives
`generate_nlist` (hence the readiness assertion) and yields the triples. -/
noncomputable def generate_neighbor_vecs (st : CatState) (i : ℕ) (u : Frame)
    (mask : Option (List Bool)) : Except PyErr (List (Vec3 × ℝ × ℕ)) :=
  if st.nlist_ready then .ok (nbr_vecs_list st i u mask) else .error .assertionError

/-- The part of a `Pairwise` instance that `get_instance` inspects: its
cutoff (`self.cutoff = cutoff` in `Pairwise.__init__`).  The remaining
`__init__` fields (`forces = []`, `nlist_obj = None`, inherited
`nlist_ready = False`) play no role in `get_instance` and are omitted. -/
structure PairwiseState where
  cutoff : ℚ
deriving DecidableEq

/-- Embeds `Pairwise.get_instance(*args)` acting on the class attribute
`Pairwise.instance`.  Input: the current shared instance and the requested
cutoff (`none` models both no argument and an explicit `None`).  Output on
success: the new value of `Pairwise.instance` and the returned reference.
With no cutoff the current instance is returned as-is (possibly `None`);
with a cutoff and no instance a fresh instance is created and stored;
with a cutoff and an existing instance, `RuntimeError("Incompatible
cutoffs: ...")` is raised when `Pairwise.instance.cutoff - args[0] < 0`,
and the existing instance is returned otherwise. -/
def Pairwise.get_instance (inst : Option PairwiseState) (arg : Option ℚ) :
    Except PyErr (Option PairwiseState × Option PairwiseState) :=
  match arg with
  | none => .ok (inst, inst)
  | some c =>
    match inst with
    | none =>
      let fresh : PairwiseState := ⟨c⟩
      .ok (some fresh, some fresh)
    | some p => if p.cutoff - c < 0 then .error .runtimeError else .ok (some p, some p)

/-- One step of the bond-unwrapping pass of `Bond._build_nlist`:
`temp[b[0].number].append(b[1].number)` then
`temp[b[1].number].append(b[0].number)`. -/
def bond_fill (temp : List (List ℕ)) (b : ℕ × ℕ) : List (List ℕ) :=
  let t1 := temp.set b.1 (temp.getD b.1 [] ++ [b.2])
  t1.set b.2 (t1.getD b.2 [] ++ [b.1])

/-- The per-particle adjacency lists `temp` built by `Bond._build_nlist`
from `u.bonds`, starting from `[[] for x in range(n)]`. -/
def bond_temp (n : ℕ) (bonds : List (ℕ × ℕ)) : List (List ℕ) :=
  bonds.foldl bond_fill (List.replicate n [])

/-- Embeds `Bond._build_nlist(u)`.  The flattened array is allocated as
`np.empty((n - 1) * (n / 2))` — Python 2 integer floor division — and then
filled with one entry per adjacency record in `temp`, `nlist_lengths[i]`
being `len(temp[i])`; writing past the allocated capacity raises numpy's
`IndexError`, which happens exactly when the total number of adjacency
entries exceeds the capacity.  On success the array is trimmed to the
written prefix (`self.nlist = self.nlist[:nlist_accum]`) and the ready flag
is set. -/
def Bond.build_nlist (u : Frame) : Except PyErr CatState :=
  let n := u.n
  let cap := (n - 1) * (n / 2)
  let temp := bond_temp n u.bonds
  let flat := temp.flatten
  if cap < flat.length then .error .indexError
  else .ok ⟨flat, temp.map List.length, true⟩

/-- Embeds `Bond._setup(u)`: build the neighbor structure unless it is ready. -/
def Bond.setup (st : CatState) (u : Frame) : Except PyErr CatState :=
  if st.nlist_ready then .ok st else Bond.build_nlist u

/-- Embeds `ForceCategory._teardown` as overridden by `Pairwise`/`Bond`:
`self.nlist_ready = False`, leaving the stored lists untouched. -/
def teardown (st : CatState) : CatState := { st with nlist_ready := false }

/-- Output destination of an analysis: either an open file handle
(Python `file` object, remembering its `name`) or a bare path string. -/
inductive OutFile where
  | handle (name : String)
  | path (name : String)
deriving DecidableEq

/-- The instance dictionary of an `RDF` analysis (`Analysis.__init__` plus
`RDF.__init__`).  `outfile = none` models the attribute being absent, the
state a pickled snapshot restores to after `__getstate__` has executed
`del odict['outfile']`.  The masks are stored as built by `_build_mask`
(lists of booleans); `category` is the shared category reference. -/
structure RDFState where
  category : CatState
  period : ℕ
  outfile : Option OutFile
  update_counts : ℕ
  sel1 : Option String
  sel2 : Option String
  mask1 : List Bool
  mask2 : List Bool
  hist : List ℕ
  binsize : ℝ
  cutoff : ℝ

/-- The body of RDF's histogram update for one yielded triple `(r, d, j)`:
`if(i < j): b = int(floor(d / self.binsize)); if(b < len(self.hist)):
self.hist[b] += 1`.  The bin index is a (mathematical) integer; a negative
index cannot arise in any modelled run since `d` is a norm and `binsize`
is positive (Python's negative-index wraparound is therefore not modelled). -/
noncomputable def rdf_process_triple (binsize : ℝ) (i : ℕ) (hist : List ℕ)
    (t : Vec3 × ℝ × ℕ) : List ℕ :=
  if i < t.2.2 then
    let b : ℤ := ⌊t.2.1 / binsize⌋
    if b < (hist.length : ℤ) then hist.set b.toNat (hist.getD b.toNat 0 + 1) else hist
  else hist

/-- The inner loop of `RDF.do_update` over the triples yielded for one
particle. -/
noncomputable def rdf_inner (binsize : ℝ) (i : ℕ) (hist : List ℕ)
    (ts : List (Vec3 × ℝ × ℕ)) : List ℕ :=
  ts.foldl (rdf_process_triple binsize i) hist

/-- The shared mask-dispatch prologue of `RDF.do_update` and
`CoordNumber.do_update`: `if(self.mask1[i]): maskj = self.mask2
elif(self.mask2[i]): maskj = self.mask1 else: continue`.  `none` models
`continue`. -/
def pick_maskj (m1 m2 : List Bool) (i : ℕ) : Option (List Bool) :=
  if m1.getD i false then some m2
  else if m2.getD i false then some m1
  else none

/-- The particle loop of `RDF.do_update`, threading the histogram and
propagating any exception from the neighbor-vector generator. -/
noncomputable def rdf_loop (cat : CatState) (u : Frame) (binsize : ℝ)
    (m1 m2 : List Bool) : List ℕ → List ℕ → Except PyErr (List ℕ)
  | [], hist => .ok hist
  | i :: rest, hist =>
    match pick_maskj m1 m2 i with
    | none => rdf_loop cat u binsize m1 m2 rest hist
    | some mj =>
      match generate_neighbor_vecs cat i u (some mj) with
      | .error e => .error e
      | .ok ts => rdf_loop cat u binsize m1 m2 rest (rdf_inner binsize i hist ts)

/-- Embeds `RDF.do_update(u)`: runs the particle loop over `range(n)` and stores
the updated histogram. -/
noncomputable def RDF.do_update (st : RDFState) (u : Frame) : Except PyErr RDFState :=
  match rdf_loop st.category u st.binsize st.mask1 st.mask2 (List.range u.n) st.hist with
  | .error e => .error e
  | .ok h => .ok { st with hist := h }

/-- Embeds `RDF.__getstate__`: `odict = self.__dict__.copy()` (taken before any
mutation), then if `outfile` is an open file it is closed and the *live*
object's `outfile` is replaced by its `name`; finally `del odict['outfile']`.
Returns (snapshot, live object after mutation).  When the attribute is
already absent the live object is returned unchanged (Python would raise
`AttributeError` on the `self.outfile` read; no modelled run reaches that). -/
def RDF.getstate (st : RDFState) : RDFState × RDFState :=
  let live :=
    match st.outfile with
    | some (.handle nm) => { st with outfile := some (.path nm) }
    | _ => st
  ({ st with outfile := none }, live)

/-- Modelled from numpy semantics (external collaborator):
`np.arange(start, stop, step)` for a positive step. -/
noncomputable def rdf_arange (start stop step : ℝ) : List ℝ :=
  (List.range ⌈(stop - start) / step⌉₊).map fun k => start + k * step

/-- The numeric rows `(r, gr)` written by `RDF.write`:
`N = sum(hist)`, `density = N / (4/3 * pi * cutoff**3)` and, per bin,
`r = 0.5*(rl + rr)`, `gr = 3*h / (density * 4 * pi * (rr**3 - rl**3))`,
zipping the two `arange` edge sequences with the histogram (Python `zip`
truncates to the shortest input). -/
noncomputable def rdf_rows (st : RDFState) : List (ℝ × ℝ) :=
  let N : ℝ := (st.hist.sum : ℝ)
  let density := N / (4 / 3 * Real.pi * st.cutoff ^ 3)
  (((rdf_arange 0 st.cutoff st.binsize).zip
      (rdf_arange st.binsize (st.cutoff + st.binsize) st.binsize)).zip st.hist).map
    fun p => (0.5 * (p.1.1 + p.1.2),
      3 * (p.2 : ℝ) / (density * 4 * Real.pi * (p.1.2 ^ 3 - p.1.1 ^ 3)))

/-- Embeds `RDF.write()` acting on a file system mapping each path to its content,
content being modelled as the list of numeric rows on the file.  A missing
`outfile` attribute (restored snapshot) makes `type(self.outfile)` raise
`AttributeError`.  A path is opened with mode `'w'`, which truncates the
file, so its new content is exactly the freshly rendered rows.  An already
open handle is rewound with `seek(0)` and overwritten in place, so bytes
past the newly written rows survive. -/
noncomputable def RDF.write (st : RDFState) (fs : String → List (ℝ × ℝ)) :
    Except PyErr (RDFState × (String → List (ℝ × ℝ))) :=
  match st.outfile with
  | none => .error .attributeError
  | some (.path p) =>
    .ok ({ st with outfile := some (.handle p) },
      fun q => if q = p then rdf_rows st else fs q)
  | some (.handle nm) =>
    .ok (st, fun q => if q = nm then rdf_rows st ++ (fs nm).drop (rdf_rows st).length else fs q)

/-- Content of `r` at path `p` when `r` is a successful `RDF.write` result. -/
noncomputable def writtenAt (r : Except PyErr (RDFState × (String → List (ℝ × ℝ))))
    (p : String) : List (ℝ × ℝ) :=
  match r with
  | .ok (_, fs) => fs p
  | .error _ => []

/-- The instance dictionary of a `CoordNumber` analysis. -/
structure CNState where
  category : CatState
  period : ℕ
  outfile : Option OutFile
  update_counts : ℕ
  sel1 : Option String
  sel2 : Option String
  mask1 : List Bool
  mask2 : List Bool
  r0 : ℝ
  cutoff : ℝ
  cn : ℝ

/-- The particle loop of `CoordNumber.do_update`, accumulating
`(self.cn, count)` as natural numbers: for each contributing particle the
in-range, `i < j` triples are counted and `count` is incremented. -/
noncomputable def cn_loop (cat : CatState) (u : Frame) (r0 : ℝ)
    (m1 m2 : List Bool) : List ℕ → ℕ × ℕ → Except PyErr (ℕ × ℕ)
  | [], acc => .ok acc
  | i :: rest, acc =>
    match pick_maskj m1 m2 i with
    | none => cn_loop cat u r0 m1 m2 rest acc
    | some mj =>
      match generate_neighbor_vecs cat i u (some mj) with
      | .error e => .error e
      | .ok ts =>
        cn_loop cat u r0 m1 m2 rest
          (acc.1 + ts.countP (fun t => decide (i < t.2.2) && decide (t.2.1 < r0)), acc.2 + 1)

/-- Embeds `CoordNumber.do_update(u)`: resets `self.cn`, runs the particle loop,
then `self.cn /= float(count)` — `ZeroDivisionError` when `count` is zero —
and `self.cn *= 2`. -/
noncomputable def CoordNumber.do_update (st : CNState) (u : Frame) : Except PyErr CNState :=
  match cn_loop st.category u st.r0 st.mask1 st.mask2 (List.range u.n) (0, 0) with
  | .error e => .error e
  | .ok acc =>
    if acc.2 = 0 then .error .zeroDivisionError
    else .ok { st with cn := ((acc.1 : ℝ) / (acc.2 : ℝ)) * 2 }

/-- The periodic-sampling state of `Analysis.update`: the sampling period
and the frame counter (`self.update_counts`, starting at 0). -/
structure AnalysisCounter where
  period : ℕ
  update_counts : ℕ
deriving DecidableEq

/-- Embeds `Analysis.update(u)`: `do_update` runs iff
`self.update_counts % self.period == 0`, and the counter is incremented
unconditionally afterwards.  The category-specific `do_update` is abstracted
to the returned flag.  (A zero period would raise `ZeroDivisionError` in
Python; the modelled claims require a period of at least 1.) -/
def Analysis.update (st : AnalysisCounter) : Bool × AnalysisCounter :=
  (st.update_counts % st.period == 0, ⟨st.period, st.update_counts + 1⟩)

/-- The counter state after `k` calls to `Analysis.update` on a fresh
analysis with period `p`. -/
def Analysis.run (p : ℕ) : ℕ → AnalysisCounter
  | 0 => ⟨p, 0⟩
  | k + 1 => (Analysis.update (Analysis.run p k)).2

/-- Python 2's `re.match(pattern, s) is not None` as called by
`Analysis.valid_pair`.  A `None` pattern raises
`TypeError("first argument must be string or compiled pattern")` inside
`re._compile`; the actual regex semantics for a string pattern live in the
external stdlib and are abstracted as `matcher`. -/
def re_match (matcher : String → String → Bool) (pat : Option String) (s : String) :
    Except PyErr Bool :=
  match pat with
  | none => .error .typeError
  | some p => .ok (matcher p s)

/-- The `try` block of `Analysis.valid_pair` (inputs already reduced to the
two type strings, as the prologue does via `atom.type`): the two
short-circuited `re.match` conjunctions in both orderings, returning true
when either matches and false otherwise. -/
def valid_pair_try (matcher : String → String → Bool) (sel1 sel2 : Option String)
    (t1 t2 : String) : Except PyErr Bool :=
  match re_match matcher sel1 t1 with
  | .error e => .error e
  | .ok b1 =>
    match (if b1 then re_match matcher sel2 t2 else .ok false) with
    | .error e => .error e
    | .ok c1 =>
      if b1 && c1 then .ok true
      else
        match re_match matcher sel2 t1 with
        | .error e => .error e
        | .ok b2 =>
          match (if b2 then re_match matcher sel1 t2 else .ok false) with
          | .error e => .error e
          | .ok c2 => .ok (b2 && c2)

/-- Embeds `Analysis.valid_pair`: the `try` block with `except AttributeError:
return True`; any other exception propagates. -/
def valid_pair (matcher : String → String → Bool) (sel1 sel2 : Option String)
    (t1 t2 : String) : Except PyErr Bool :=
  match valid_pair_try matcher sel1 sel2 t1 t2 with
  | .error .attributeError => .ok true
  | r => r

/-- Boolean hit test for one RDF triple at bin `b`: the `i < j` guard and
the bin equation `floor(d / binsize) = b`. -/
noncomputable def rdfHit (binsize : ℝ) (i b : ℕ) (t : Vec3 × ℝ × ℕ) : Bool :=
  decide (i < t.2.2) && decide (⌊t.2.1 / binsize⌋ = (b : ℤ))

/-- Claim C6's per-particle histogram contribution at bin `b`: particles in
neither group contribute nothing, all others count the yielded triples of
the complementary-mask lookup that satisfy `i < j` and whose distance falls
in bin `b`. -/
noncomputable def rdf_claim_contrib (cat : CatState) (u : Frame) (binsize : ℝ)
    (m1 m2 : List Bool) (b : ℕ) (i : ℕ) : ℕ :=
  match pick_maskj m1 m2 i with
  | none => 0
  | some mj => (nbr_vecs_list cat i u (some mj)).countP (rdfHit binsize i b)

/-- Claim C7's per-particle pair count: the yielded triples of the
complementary-mask lookup with `i < j` and distance strictly below `r0`. -/
noncomputable def cn_pair_count (cat : CatState) (u : Frame) (r0 : ℝ)
    (m1 m2 : List Bool) (i : ℕ) : ℕ :=
  match pick_maskj m1 m2 i with
  | none => 0
  | some mj =>
    (nbr_vecs_list cat i u (some mj)).countP fun t => decide (i < t.2.2) && decide (t.2.1 < r0)

/-- Total number of counted pairs across all particles of a frame. -/
noncomputable def cn_counted (cat : CatState) (u : Frame) (r0 : ℝ)
    (m1 m2 : List Bool) : ℕ :=
  ((List.range u.n).map (cn_pair_count cat u r0 m1 m2)).sum

/-- Number of contributing particles: those in group 1 or group 2. -/
def cn_contributing (m1 m2 : List Bool) (n : ℕ) : ℕ :=
  (List.range n).countP fun i => m1.getD i false || m2.getD i false

/-- Purely functional form of the `RDF.do_update` particle loop, defined on
the success path (used to characterize `rdf_loop` when the category is
ready). -/
noncomputable def rdf_loop_pure (cat : CatState) (u : Frame) (binsize : ℝ)
    (m1 m2 : List Bool) : List ℕ → List ℕ → List ℕ
  | [], hist => hist
  | i :: rest, hist =>
    match pick_maskj m1 m2 i with
    | none => rdf_loop_pure cat u binsize m1 m2 rest hist
    | some mj =>
      rdf_loop_pure cat u binsize m1 m2 rest
        (rdf_inner binsize i hist (nbr_vecs_list cat i u (some mj)))

/-! Concrete inputs used by the witness theorems below. -/

/-- Claim C2's example frame: 3 particles with bond list `[(0,1),(1,2)]`
(positions and box are irrelevant to the Bond builder). -/
def c2_frame : Frame := ⟨[⟨0, 0, 0⟩, ⟨0, 0, 0⟩, ⟨0, 0, 0⟩], ⟨0, 0, 0⟩, false, [(0, 1), (1, 2)]⟩

/-- A 2-particle frame with both particles at the origin (overlap is the
degenerate case claim C5 singles out), non-periodic. -/
def u5 : Frame := ⟨[⟨0, 0, 0⟩, ⟨0, 0, 0⟩], ⟨0, 0, 0⟩, false, []⟩

/-- A ready category state whose neighbor structure pairs the two particles
of `u5`. -/
def cat5 : CatState := ⟨[1, 0], [1, 1], true⟩

/-- An RDF analysis state over `cat5` whose masks select no particle. -/
noncomputable def st6 : RDFState :=
  { category := cat5, period := 1, outfile := some (.path "rdf.txt"), update_counts := 0,
    sel1 := none, sel2 := none, mask1 := [false, false], mask2 := [false, false],
    hist := [0, 0], binsize := 1, cutoff := 2 }

/-- A 1-particle frame at the origin. -/
def u7 : Frame := ⟨[⟨0, 0, 0⟩], ⟨0, 0, 0⟩, false, []⟩

/-- A ready category state with an empty neighbor list for the single
particle of `u7`. -/
def cat7 : CatState := ⟨[], [0], true⟩

/-- A CoordNumber analysis state over `cat7` whose single particle sits in
group 1 only. -/
noncomputable def st7 : CNState :=
  { category := cat7, period := 1, outfile := some (.path "cn.txt"), update_counts := 0,
    sel1 := none, sel2 := none, mask1 := [true], mask2 := [false],
    r0 := 1, cutoff := 2, cn := 0 }

/-- The state `CoordNumber.do_update st7 u7` produces. -/
noncomputable def st7x : CNState := { st7 with cn := (((0 : ℕ) : ℝ) / ((1 : ℕ) : ℝ)) * 2 }

/-- A CoordNumber analysis state over `cat7` whose masks select no particle. -/
noncomputable def st10 : CNState := { st7 with mask1 := [false] }

/-- A 3-particle frame with the single bond `(0,1)`, small enough for the
Bond builder's capacity. -/
def u9 : Frame := ⟨[⟨0, 0, 0⟩, ⟨0, 0, 0⟩, ⟨0, 0, 0⟩], ⟨0, 0, 0⟩, false, [(0, 1)]⟩

/-- The category state `Bond._build_nlist` produces on `u9`. -/
def st9 : CatState := ⟨[1, 0], [1, 1, 0], true⟩

/-- An RDF analysis state holding an open output handle on `rdf.txt`. -/
noncomputable def c4_state : RDFState := { st6 with outfile := some (.handle "rdf.txt") }

/-- An RDF analysis state holding the bare path `rdf.txt` with an empty
histogram, so that `RDF.write` renders zero rows. -/
noncomputable def c4_path_state : RDFState :=
  { st6 with outfile := some (.path "rdf.txt"), hist := [] }

/-- A file system whose every path already holds one row of prior output. -/
noncomputable def fs1 : String → List (ℝ × ℝ) := fun _ => [(1, 1)]

/-! Helper lemmas. -/

/-- Reading back the updated entry of `List.set`. -/
theorem getD_set_self (l : List ℕ) (n : ℕ) (v : ℕ) (h : n < l.length) :
    (l.set n v).getD n 0 = v := by
  induction l generalizing n with
  | nil => simp at h
  | cons a t ih =>
    cases n with
    | zero => rfl
    | succ m =>
      simpa using ih m (by simpa using h)

/-- Reading any other entry of `List.set`. -/
theorem getD_set_ne (l : List ℕ) (m n : ℕ) (v : ℕ) (h : m ≠ n) :
    (l.set m v).getD n 0 = l.getD n 0 := by
  induction l generalizing m n with
  | nil => rfl
  | cons a t ih =>
    cases m with
    | zero =>
      cases n with
      | zero => exact absurd rfl h
      | succ n2 => rfl
    | succ m2 =>
      cases n with
      | zero => rfl
      | succ n2 => simpa using ih m2 n2 (by omega)

/-- A norm is nonnegative. -/
theorem norm3_nonneg (v : Vec3) : 0 ≤ norm3 v := Real.sqrt_nonneg _

/-- Norm of the zero vector. -/
theorem norm3_zero_vec : norm3 Vec3.zero = 0 := by
  simp [norm3, Vec3.zero]

/-- A vector of norm zero is the zero vector. -/
theorem norm3_eq_zero (v : Vec3) (h : norm3 v = 0) : v = Vec3.zero := by
  have hle : v.x ^ 2 + v.y ^ 2 + v.z ^ 2 ≤ 0 := Real.sqrt_eq_zero'.mp h
  have hx : v.x = 0 := by nlinarith [sq_nonneg v.x, sq_nonneg v.y, sq_nonneg v.z]
  have hy : v.y = 0 := by nlinarith [sq_nonneg v.x, sq_nonneg v.y, sq_nonneg v.z]
  have hz : v.z = 0 := by nlinarith [sq_nonneg v.x, sq_nonneg v.y, sq_nonneg v.z]
  ext <;> simp [Vec3.zero, hx, hy, hz]

/-- Dividing a vector by its nonzero norm yields a unit vector. -/
theorem norm3_sdiv_self (v : Vec3) (h : norm3 v ≠ 0) :
    norm3 (v.sdiv (norm3 v)) = 1 := by
  have hnn : 0 ≤ v.x ^ 2 + v.y ^ 2 + v.z ^ 2 := by positivity
  have hs0 : v.x ^ 2 + v.y ^ 2 + v.z ^ 2 ≠ 0 := by
    intro h0
    exact h (by simp [norm3, h0])
  have hd2 : norm3 v ^ 2 = v.x ^ 2 + v.y ^ 2 + v.z ^ 2 := Real.sq_sqrt hnn
  have hsum : (v.x / norm3 v) ^ 2 + (v.y / norm3 v) ^ 2 + (v.z / norm3 v) ^ 2
      = (v.x ^ 2 + v.y ^ 2 + v.z ^ 2) / (v.x ^ 2 + v.y ^ 2 + v.z ^ 2) := by
    rw [div_pow, div_pow, div_pow, div_add_div_same, div_add_div_same, hd2]
  show Real.sqrt _ = 1
  rw [show (v.sdiv (norm3 v)).x = v.x / norm3 v from rfl,
    show (v.sdiv (norm3 v)).y = v.y / norm3 v from rfl,
    show (v.sdiv (norm3 v)).z = v.z / norm3 v from rfl,
    hsum, div_self hs0, Real.sqrt_one]

/-! Claim theorems. -/

/-- C1, counterexample.  With a shared Pairwise instance of cutoff 5, the
claim demands that requesting cutoff 6 (≥ 5) succeed with the same instance
and that requesting cutoff 4 (< 5) raise; the code does the opposite:
6 raises the incompatible-cutoff RuntimeError and 4 succeeds, returning the
existing instance. -/
theorem c1_counterexample :
    (5 : ℚ) ≤ 6 ∧
    Pairwise.get_instance (some ⟨5⟩) (some 6) = .error .runtimeError ∧
    (4 : ℚ) < 5 ∧
    Pairwise.get_instance (some ⟨5⟩) (some 4) = .ok (some ⟨5⟩, some ⟨5⟩) := by
  refine ⟨by norm_num, ?_, by norm_num, ?_⟩ <;> norm_num [Pairwise.get_instance]

/-- C1, amended.  If a shared Pairwise instance exists with cutoff `c`,
`get_instance(c')` succeeds and returns the same existing instance for every
requested `c' ≤ c`, and raises the incompatible-cutoff RuntimeError for
every `c' > c`. -/
theorem c1_amended (p : PairwiseState) (c : ℚ) :
    (c ≤ p.cutoff → Pairwise.get_instance (some p) (some c) = .ok (some p, some p)) ∧
    (p.cutoff < c → Pairwise.get_instance (some p) (some c) = .error .runtimeError) := by
  constructor <;> intro h
  · have hn : ¬p.cutoff - c < 0 := by
      rw [sub_neg]
      exact not_lt.mpr h
    simp [Pairwise.get_instance, hn]
  · have hn : p.cutoff - c < 0 := by
      rw [sub_neg]
      exact h
    simp [Pairwise.get_instance, hn]

/-- C1, witness for the amended theorem at cutoff 5 and requests 4 and 6. -/
theorem c1_witness :
    ((4 : ℚ) ≤ (PairwiseState.mk 5).cutoff ∧
      Pairwise.get_instance (some ⟨5⟩) (some 4) = .ok (some ⟨5⟩, some ⟨5⟩)) ∧
    ((PairwiseState.mk 5).cutoff < 6 ∧
      Pairwise.get_instance (some ⟨5⟩) (some 6) = .error .runtimeError) :=
  ⟨⟨by norm_num, (c1_amended ⟨5⟩ 4).1 (by norm_num)⟩,
   ⟨by norm_num, (c1_amended ⟨5⟩ 6).2 (by norm_num)⟩⟩

/-- C2, code bug.  On the claimed example — 3 particles, bond list
`[(0,1),(1,2)]` — the unwrapped adjacency is indeed `[[1],[0,2],[1]]`
(so the intended `nlist_lengths = [1,2,1]` and flattened `nlist = [1,0,2,1]`),
but the flattened array is pre-sized to `(n-1)*(n/2) = 2` entries (Python 2
floor division), so writing the third of the 4 required entries raises
`IndexError` instead of the claimed successful build. -/
theorem c2_failing_build :
    bond_temp 3 [(0, 1), (1, 2)] = [[1], [0, 2], [1]] ∧
    (c2_frame.n - 1) * (c2_frame.n / 2) = 2 ∧
    Bond.build_nlist c2_frame = .error .indexError := by
  refine ⟨?_, ?_, ?_⟩ <;> rfl

/-- C3, code bug.  With no type selectors configured (`sel1 = sel2 = None`),
`valid_pair` does not return true: `re.match(None, atom1)` raises
`TypeError`, and the `except AttributeError` handler does not catch it, so
the call raises for every pair of inputs and every regex semantics. -/
theorem c3_none_selectors_raise (matcher : String → String → Bool) (t1 t2 : String) :
    valid_pair matcher none none t1 t2 = .error .typeError := rfl

/-- C4, counterexample.  For a concrete RDF state holding an open handle on
`rdf.txt`, the pickled snapshot does not store the destination path in the
handle's place — the `outfile` entry is deleted outright; and a subsequent
`write` on a path-holding state truncates: the file's prior row survives
nowhere in the new content. -/
theorem c4_counterexample :
    ((RDF.getstate c4_state).1.outfile = none ∧
      (RDF.getstate c4_state).1.outfile ≠ some (.path "rdf.txt")) ∧
    (fs1 "rdf.txt" = [(1, 1)] ∧
      writtenAt (RDF.write c4_path_state fs1) "rdf.txt" = []) := by
  refine ⟨⟨rfl, by simp [RDF.getstate, c4_state]⟩, rfl, ?_⟩
  show (if "rdf.txt" = "rdf.txt" then rdf_rows c4_path_state else fs1 "rdf.txt") = []
  rw [if_pos rfl]
  simp [rdf_rows, c4_path_state]

/-- C4, amended.  `__getstate__` excludes the output handle from the
snapshot entirely — no destination path is stored in its place (the path
replaces the handle only on the live object); a state restored from the
snapshot therefore has no `outfile` and `write` raises `AttributeError` on
it; and `write` on a destination path reopens it in truncating mode, so the
file's new content is exactly the freshly rendered rows regardless of what
was there before (overwrite, not append). -/
theorem c4_amended (st : RDFState) (nm : String) (fs : String → List (ℝ × ℝ)) :
    (RDF.getstate st).1.outfile = none ∧
    (RDF.getstate { st with outfile := some (.handle nm) }).2.outfile = some (.path nm) ∧
    RDF.write { st with outfile := none } fs = .error .attributeError ∧
    writtenAt (RDF.write { st with outfile := some (.path nm) } fs) nm
      = rdf_rows { st with outfile := some (.path nm) } := by
  refine ⟨rfl, rfl, rfl, ?_⟩
  show (if nm = nm then rdf_rows _ else fs nm) = _
  rw [if_pos rfl]

/-- Skipping via an optional predicate inside `filterMap` is filtering then
mapping. -/
theorem filterMap_skip (p : ℕ → Bool) (f : ℕ → Vec3 × ℝ × ℕ) (js : List ℕ) :
    (js.filterMap fun j => if p j then none else some (f j))
      = (js.filter fun j => !p j).map f := by
  induction js with
  | nil => rfl
  | cons j t ih =>
    by_cases h : p j <;> simp [List.filterMap_cons, List.filter_cons, h, ih]

/-- The normalization guard of the generator: at norm zero the raw vector
(which must itself be zero) is yielded, otherwise the raw vector divided by
its norm — a unit vector. -/
theorem ite_norm_spec (r : Vec3) :
    (norm3 r = 0 → (if norm3 r = 0 then r else r.sdiv (norm3 r)) = Vec3.zero) ∧
    (norm3 r ≠ 0 → (if norm3 r = 0 then r else r.sdiv (norm3 r)) = r.sdiv (norm3 r)) ∧
    (norm3 r ≠ 0 → norm3 (if norm3 r = 0 then r else r.sdiv (norm3 r)) = 1) := by
  refine ⟨?_, ?_, ?_⟩ <;> intro h
  · rw [if_pos h]
    exact norm3_eq_zero _ h
  · rw [if_neg h]
  · rw [if_neg h]
    exact norm3_sdiv_self _ h

/-- Componentwise facts about one yielded triple: its index is the neighbor
index, its scalar is the minimum-image norm, and its vector is the zero
vector at distance zero and the minimum-image displacement divided by that
distance — a unit vector — otherwise. -/
theorem nbr_triple_spec (u : Frame) (i j : ℕ) :
    (nbr_triple u i j).2.2 = j ∧
    (nbr_triple u i j).2.1 = norm3 (min_img_vec (u.positions.getD j Vec3.zero)
      (u.positions.getD i Vec3.zero) u.dims u.periodic) ∧
    ((nbr_triple u i j).2.1 = 0 → (nbr_triple u i j).1 = Vec3.zero) ∧
    ((nbr_triple u i j).2.1 ≠ 0 →
      (nbr_triple u i j).1 = (min_img_vec (u.positions.getD j Vec3.zero)
        (u.positions.getD i Vec3.zero) u.dims u.periodic).sdiv ((nbr_triple u i j).2.1) ∧
      norm3 (nbr_triple u i j).1 = 1) :=
  ⟨rfl, rfl,
    (ite_norm_spec (min_img_vec (u.positions.getD j Vec3.zero)
      (u.positions.getD i Vec3.zero) u.dims u.periodic)).1,
    fun h =>
      ⟨(ite_norm_spec (min_img_vec (u.positions.getD j Vec3.zero)
          (u.positions.getD i Vec3.zero) u.dims u.periodic)).2.1 h,
        (ite_norm_spec (min_img_vec (u.positions.getD j Vec3.zero)
          (u.positions.getD i Vec3.zero) u.dims u.periodic)).2.2 h⟩⟩

/-- C5.  For a ready category, `generate_neighbor_vecs(i, frame, mask)`
succeeds and yields exactly one triple per neighbor `j` of `i` that the mask
does not skip, in neighbor-list order; in every yielded triple `(r, d, j)`
the scalar `d` is the minimum-image distance between particles `i` and `j`,
`r` is the zero vector when `d = 0`, and otherwise `r` is the unit vector of
the minimum-image displacement — that displacement divided by `d`, of
norm 1. -/
theorem c5_neighbor_vecs (st : CatState) (u : Frame) (i : ℕ)
    (mask : Option (List Bool)) (l : List (Vec3 × ℝ × ℕ))
    (hready : st.nlist_ready = true)
    (hl : generate_neighbor_vecs st i u mask = .ok l) :
    l.map (fun t => t.2.2) = (nlist_slice st i).filter (fun j => !maskSkip mask j) ∧
    ∀ t ∈ l,
      t.2.1 = norm3 (min_img_vec (u.positions.getD t.2.2 Vec3.zero)
        (u.positions.getD i Vec3.zero) u.dims u.periodic) ∧
      (t.2.1 = 0 → t.1 = Vec3.zero) ∧
      (t.2.1 ≠ 0 →
        t.1 = (min_img_vec (u.positions.getD t.2.2 Vec3.zero)
          (u.positions.getD i Vec3.zero) u.dims u.periodic).sdiv t.2.1 ∧
        norm3 t.1 = 1) := by
  have hlv : l = nbr_vecs_list st i u mask := by
    unfold generate_neighbor_vecs at hl
    rw [hready] at hl
    simpa using hl.symm
  subst hlv
  unfold nbr_vecs_list
  rw [filterMap_skip]
  constructor
  · rw [List.map_map]
    have hcomp : ((fun t : Vec3 × ℝ × ℕ => t.2.2) ∘ nbr_triple u i) = id := by
      funext j
      rfl
    rw [hcomp, List.map_id]
  · intro t ht
    obtain ⟨j, hj, rfl⟩ := List.mem_map.mp ht
    obtain ⟨h1, h2, h3, h4⟩ := nbr_triple_spec u i j
    rw [h1]
    exact ⟨h2, h3, h4⟩

/-- C5, witness at a ready 2-particle category with overlapping particles
and no mask. -/
theorem c5_witness :
    cat5.nlist_ready = true ∧
    generate_neighbor_vecs cat5 0 u5 none = .ok (nbr_vecs_list cat5 0 u5 none) ∧
    ((nbr_vecs_list cat5 0 u5 none).map (fun t => t.2.2)
        = (nlist_slice cat5 0).filter (fun j => !maskSkip none j) ∧
      ∀ t ∈ nbr_vecs_list cat5 0 u5 none,
        t.2.1 = norm3 (min_img_vec (u5.positions.getD t.2.2 Vec3.zero)
          (u5.positions.getD 0 Vec3.zero) u5.dims u5.periodic) ∧
        (t.2.1 = 0 → t.1 = Vec3.zero) ∧
        (t.2.1 ≠ 0 →
          t.1 = (min_img_vec (u5.positions.getD t.2.2 Vec3.zero)
            (u5.positions.getD 0 Vec3.zero) u5.dims u5.periodic).sdiv t.2.1 ∧
          norm3 t.1 = 1)) :=
  ⟨rfl, rfl, c5_neighbor_vecs cat5 u5 0 none (nbr_vecs_list cat5 0 u5 none) rfl rfl⟩

/-- C8.  With period `p ≥ 1`, starting from a fresh analysis: every call
increments the counter by exactly one, after `k` calls the counter reads
`k`, and the `(k+1)`-st call runs `do_update` iff the counter value `k` at
that call satisfies `k % p = 0`, that is, iff `k` is a multiple of `p` —
the 1st, `(p+1)`-th, `(2p+1)`-th, ... calls. -/
theorem c8_update_gating (p k : ℕ) (_hp : 1 ≤ p) :
    (Analysis.update (Analysis.run p k)).2.update_counts
      = (Analysis.run p k).update_counts + 1 ∧
    (Analysis.run p k).update_counts = k ∧
    ((Analysis.update (Analysis.run p k)).1 = true ↔
      (Analysis.run p k).update_counts % p = 0) ∧
    ((Analysis.update (Analysis.run p k)).1 = true ↔ ∃ m, k = m * p) := by
  have hcount : ∀ j, (Analysis.run p j).update_counts = j := by
    intro j
    induction j with
    | zero => rfl
    | succ n ih => simp [Analysis.run, Analysis.update, ih]
  have hper : ∀ j, (Analysis.run p j).period = p := by
    intro j
    induction j with
    | zero => rfl
    | succ n ih => simp [Analysis.run, Analysis.update, ih]
  have hflag : (Analysis.update (Analysis.run p k)).1 = true ↔ k % p = 0 := by
    show ((Analysis.run p k).update_counts % (Analysis.run p k).period == 0) = true ↔ _
    rw [hcount k, hper k, beq_iff_eq]
  refine ⟨rfl, hcount k, by rw [hcount k]; exact hflag, ?_⟩
  rw [hflag]
  constructor
  · intro h0
    obtain ⟨c, hc⟩ := (Nat.dvd_of_mod_eq_zero h0 : p ∣ k)
    exact ⟨c, by rw [hc, mul_comm]⟩
  · rintro ⟨m, rfl⟩
    exact Nat.mul_mod_left m p

/-- C8, witness at period 2 after 4 calls. -/
theorem c8_witness :
    1 ≤ 2 ∧
    ((Analysis.update (Analysis.run 2 4)).2.update_counts
        = (Analysis.run 2 4).update_counts + 1 ∧
      (Analysis.run 2 4).update_counts = 4 ∧
      ((Analysis.update (Analysis.run 2 4)).1 = true ↔
        (Analysis.run 2 4).update_counts % 2 = 0) ∧
      ((Analysis.update (Analysis.run 2 4)).1 = true ↔ ∃ m, 4 = m * 2)) :=
  ⟨by norm_num, c8_update_gating 2 4 (by norm_num)⟩

/-- Filling one bond preserves the number of per-particle lists. -/
theorem bond_fill_length (temp : List (List ℕ)) (b : ℕ × ℕ) :
    (bond_fill temp b).length = temp.length := by
  simp [bond_fill]

/-- The unwrapped adjacency has one list per particle. -/
theorem bond_temp_length (n : ℕ) (bonds : List (ℕ × ℕ)) :
    (bond_temp n bonds).length = n := by
  unfold bond_temp
  have hfold : ∀ (bs : List (ℕ × ℕ)) (init : List (List ℕ)),
      (bs.foldl bond_fill init).length = init.length := by
    intro bs
    induction bs with
    | nil => intro init; rfl
    | cons b t ih =>
      intro init
      rw [List.foldl_cons, ih, bond_fill_length]
  rw [hfold, List.length_replicate]

/-- C9.  Whenever `Bond._build_nlist` completes on a frame with `n`
particles, the resulting neighbor structure satisfies
`sum(nlist_lengths) = len(nlist)` with exactly one length entry per
particle and the ready flag set; a subsequent `_setup` leaves the state
untouched, and `_teardown` clears only the ready flag, preserving both
lists (hence the invariant). -/
theorem c9_bond_invariant (u : Frame) (st : CatState)
    (h : Bond.build_nlist u = .ok st) :
    st.nlist_lengths.sum = st.nlist.length ∧
    st.nlist_lengths.length = u.n ∧
    st.nlist_ready = true ∧
    Bond.setup st u = .ok st ∧
    (teardown st).nlist = st.nlist ∧
    (teardown st).nlist_lengths = st.nlist_lengths := by
  simp only [Bond.build_nlist] at h
  split at h
  · cases h
  · cases h
    refine ⟨(List.length_flatten _).symm, ?_, rfl, ?_, rfl, rfl⟩
    · rw [List.length_map, bond_temp_length]
    · simp [Bond.setup]

/-- C9, witness: the builder succeeds on the 3-particle frame with the
single bond `(0,1)`. -/
theorem c9_witness :
    Bond.build_nlist u9 = .ok st9 ∧
    (st9.nlist_lengths.sum = st9.nlist.length ∧
      st9.nlist_lengths.length = u9.n ∧
      st9.nlist_ready = true ∧
      Bond.setup st9 u9 = .ok st9 ∧
      (teardown st9).nlist = st9.nlist ∧
      (teardown st9).nlist_lengths = st9.nlist_lengths) :=
  ⟨rfl, c9_bond_invariant u9 st9 rfl⟩

/-- When every visited particle is skipped by the mask prologue, the
CoordNumber loop returns its accumulator unchanged. -/
theorem cn_loop_skip (cat : CatState) (u : Frame) (r0 : ℝ) (m1 m2 : List Bool) :
    ∀ (idx : List ℕ) (acc : ℕ × ℕ), (∀ i ∈ idx, pick_maskj m1 m2 i = none) →
      cn_loop cat u r0 m1 m2 idx acc = .ok acc := by
  intro idx
  induction idx with
  | nil => intro acc _; rfl
  | cons i t ih =>
    intro acc hall
    have hi : pick_maskj m1 m2 i = none := hall i (by simp)
    simp only [cn_loop, hi]
    exact ih acc fun j hj => hall j (by simp [hj])

/-- C10.  On a frame where no particle is selected by either mask, the
CoordNumber update counts no contributing particle, so the final division
`self.cn /= float(count)` has denominator zero and the operation raises
`ZeroDivisionError` instead of producing a coordination number. -/
theorem c10_zero_division (st : CNState) (u : Frame)
    (h : ∀ i, i < u.n → st.mask1.getD i false = false ∧ st.mask2.getD i false = false) :
    CoordNumber.do_update st u = .error .zeroDivisionError := by
  have hall : ∀ i ∈ List.range u.n, pick_maskj st.mask1 st.mask2 i = none := by
    intro i hi
    obtain ⟨h1, h2⟩ := h i (List.mem_range.mp hi)
    unfold pick_maskj
    rw [h1, h2]
    simp
  unfold CoordNumber.do_update
  rw [cn_loop_skip st.category u st.r0 st.mask1 st.mask2 (List.range u.n) (0, 0) hall]
  rfl

/-- C10, witness at a 1-particle frame whose masks are all false. -/
theorem c10_witness :
    (∀ i, i < u7.n → st10.mask1.getD i false = false ∧ st10.mask2.getD i false = false) ∧
    CoordNumber.do_update st10 u7 = .error .zeroDivisionError :=
  ⟨by decide, c10_zero_division st10 u7 (by decide)⟩

/-- One histogram step preserves the histogram length. -/
theorem rdf_process_triple_length (bs : ℝ) (i : ℕ) (hist : List ℕ) (t : Vec3 × ℝ × ℕ) :
    (rdf_process_triple bs i hist t).length = hist.length := by
  simp only [rdf_process_triple]
  split
  · split
    · rw [List.length_set]
    · rfl
  · rfl

/-- One histogram step, read back at an in-range bin `b`: the count grows by
one exactly when the triple passes the `i < j` guard and its distance falls
in bin `b`.  Requires a nonnegative distance and a positive bin size, which
hold in every modelled run. -/
theorem rdf_process_triple_getD (bs : ℝ) (hbs : 0 < bs) (i b : ℕ) (hist : List ℕ)
    (t : Vec3 × ℝ × ℕ) (hd : 0 ≤ t.2.1) (hb : b < hist.length) :
    (rdf_process_triple bs i hist t).getD b 0
      = hist.getD b 0 + (if rdfHit bs i b t then 1 else 0) := by
  unfold rdf_process_triple
  by_cases hij : i < t.2.2
  · rw [if_pos hij]
    have hbz0 : 0 ≤ ⌊t.2.1 / bs⌋ := Int.floor_nonneg.mpr (div_nonneg hd hbs.le)
    by_cases hlt : ⌊t.2.1 / bs⌋ < (hist.length : ℤ)
    · rw [if_pos hlt]
      by_cases heq : ⌊t.2.1 / bs⌋ = (b : ℤ)
      · have htn : (⌊t.2.1 / bs⌋).toNat = b := by omega
        rw [htn, getD_set_self _ _ _ hb]
        simp [rdfHit, hij, heq]
      · have htn : (⌊t.2.1 / bs⌋).toNat ≠ b := by omega
        rw [getD_set_ne _ _ _ _ htn]
        simp [rdfHit, hij, heq]
    · rw [if_neg hlt]
      have heq : ¬⌊t.2.1 / bs⌋ = (b : ℤ) := by omega
      simp [rdfHit, hij, heq]
  · rw [if_neg hij]
    simp [rdfHit, hij]

/-- The per-particle inner loop preserves the histogram length. -/
theorem rdf_inner_length (bs : ℝ) (i : ℕ) (ts : List (Vec3 × ℝ × ℕ)) (hist : List ℕ) :
    (rdf_inner bs i hist ts).length = hist.length := by
  induction ts generalizing hist with
  | nil => rfl
  | cons t ts2 ih =>
    show (rdf_inner bs i (rdf_process_triple bs i hist t) ts2).length = _
    rw [ih, rdf_process_triple_length]

/-- The per-particle inner loop adds, at every in-range bin `b`, the number
of processed triples that hit bin `b`. -/
theorem rdf_inner_getD (bs : ℝ) (hbs : 0 < bs) (i b : ℕ) (ts : List (Vec3 × ℝ × ℕ))
    (hist : List ℕ) (hd : ∀ t ∈ ts, 0 ≤ t.2.1) (hb : b < hist.length) :
    (rdf_inner bs i hist ts).getD b 0 = hist.getD b 0 + ts.countP (rdfHit bs i b) := by
  induction ts generalizing hist with
  | nil => simp [rdf_inner]
  | cons t ts2 ih =>
    have h1 := rdf_process_triple_getD bs hbs i b hist t (hd t (by simp)) hb
    have hb2 : b < (rdf_process_triple bs i hist t).length := by
      rw [rdf_process_triple_length]
      exact hb
    have ih2 := ih (rdf_process_triple bs i hist t)
      (fun t2 ht2 => hd t2 (List.mem_cons_of_mem t ht2)) hb2
    show (rdf_inner bs i (rdf_process_triple bs i hist t) ts2).getD b 0 = _
    rw [ih2, h1, List.countP_cons]
    by_cases hhit : rdfHit bs i b t = true
    · simp [hhit]
      omega
    · simp [hhit]

/-- Every triple yielded by the generator carries a nonnegative distance
(it is a Euclidean norm). -/
theorem nbr_vecs_nonneg (cat : CatState) (i : ℕ) (u : Frame)
    (mask : Option (List Bool)) : ∀ t ∈ nbr_vecs_list cat i u mask, 0 ≤ t.2.1 := by
  intro t ht
  unfold nbr_vecs_list at ht
  rw [filterMap_skip] at ht
  obtain ⟨j, hj, rfl⟩ := List.mem_map.mp ht
  exact norm3_nonneg _

/-- For a ready category the RDF particle loop never raises, computing its
purely functional form. -/
theorem rdf_loop_ok (cat : CatState) (u : Frame) (bs : ℝ) (m1 m2 : List Bool)
    (hready : cat.nlist_ready = true) :
    ∀ (idx : List ℕ) (hist : List ℕ),
      rdf_loop cat u bs m1 m2 idx hist = .ok (rdf_loop_pure cat u bs m1 m2 idx hist) := by
  intro idx
  induction idx with
  | nil => intro hist; rfl
  | cons i rest ih =>
    intro hist
    cases hpick : pick_maskj m1 m2 i with
    | none =>
      simp only [rdf_loop, rdf_loop_pure, hpick]
      exact ih hist
    | some mj =>
      simp only [rdf_loop, rdf_loop_pure, hpick, generate_neighbor_vecs, hready, if_true]
      exact ih _

/-- The RDF particle loop preserves the histogram length. -/
theorem rdf_loop_pure_length (cat : CatState) (u : Frame) (bs : ℝ) (m1 m2 : List Bool) :
    ∀ (idx : List ℕ) (hist : List ℕ),
      (rdf_loop_pure cat u bs m1 m2 idx hist).length = hist.length := by
  intro idx
  induction idx with
  | nil => intro hist; rfl
  | cons i rest ih =>
    intro hist
    cases hpick : pick_maskj m1 m2 i with
    | none =>
      simp only [rdf_loop_pure, hpick]
      exact ih hist
    | some mj =>
      simp only [rdf_loop_pure, hpick]
      rw [ih, rdf_inner_length]

/-- The RDF particle loop adds, at every in-range bin `b`, the sum over the
visited particles of their claim-C6 contribution. -/
theorem rdf_loop_pure_getD (cat : CatState) (u : Frame) (bs : ℝ) (m1 m2 : List Bool)
    (hbs : 0 < bs) (b : ℕ) :
    ∀ (idx : List ℕ) (hist : List ℕ), b < hist.length →
      (rdf_loop_pure cat u bs m1 m2 idx hist).getD b 0
        = hist.getD b 0 + (idx.map (rdf_claim_contrib cat u bs m1 m2 b)).sum := by
  intro idx
  induction idx with
  | nil => intro hist _; simp [rdf_loop_pure]
  | cons i rest ih =>
    intro hist hb
    cases hpick : pick_maskj m1 m2 i with
    | none =>
      have hc : rdf_claim_contrib cat u bs m1 m2 b i = 0 := by
        unfold rdf_claim_contrib
        rw [hpick]
      simp only [rdf_loop_pure, hpick, List.map_cons, List.sum_cons, hc, Nat.zero_add]
      exact ih hist hb
    | some mj =>
      have hc : rdf_claim_contrib cat u bs m1 m2 b i
          = (nbr_vecs_list cat i u (some mj)).countP (rdfHit bs i b) := by
        unfold rdf_claim_contrib
        rw [hpick]
      have hb2 : b < (rdf_inner bs i hist (nbr_vecs_list cat i u (some mj))).length := by
        rw [rdf_inner_length]
        exact hb
      simp only [rdf_loop_pure, hpick, List.map_cons, List.sum_cons, hc]
      rw [ih _ hb2, rdf_inner_getD bs hbs i b _ hist (nbr_vecs_nonneg cat i u (some mj)) hb]
      omega

/-- C6.  For a ready category and positive bin size, `RDF.do_update`
succeeds and updates the histogram so that every in-range bin `b` grows by
exactly the number of counted pairs hitting it: particles in neither group
contribute nothing; a particle in group 1 is paired against mask 2 and a
remaining group-2 particle against mask 1; and for each yielded neighbor
`j` with `i < j` the bin `floor(distance / binsize)` is incremented exactly
when that bin index is within the histogram's range (the histogram length
never changes, and out-of-range distances increment nothing). -/
theorem c6_rdf_histogram (st : RDFState) (u : Frame) (st' : RDFState)
    (hready : st.category.nlist_ready = true) (hbs : 0 < st.binsize)
    (hup : RDF.do_update st u = .ok st') :
    st'.hist.length = st.hist.length ∧
    ∀ b, b < st.hist.length →
      st'.hist.getD b 0 = st.hist.getD b 0 +
        ((List.range u.n).map
          (rdf_claim_contrib st.category u st.binsize st.mask1 st.mask2 b)).sum := by
  unfold RDF.do_update at hup
  rw [rdf_loop_ok st.category u st.binsize st.mask1 st.mask2 hready (List.range u.n) st.hist]
    at hup
  have hup2 : (Except.ok
      { st with
        hist :=
          rdf_loop_pure st.category u st.binsize st.mask1 st.mask2 (List.range u.n)
            st.hist } :
      Except PyErr RDFState) = .ok st' := hup
  injection hup2 with hst
  subst hst
  exact ⟨rdf_loop_pure_length st.category u st.binsize st.mask1 st.mask2 _ _,
    fun b hb => rdf_loop_pure_getD st.category u st.binsize st.mask1 st.mask2 hbs b _ _ hb⟩

/-- C6, witness at a ready category and a 2-particle frame whose masks
select no particle (both contributions are empty and the histogram is
unchanged). -/
theorem c6_witness :
    st6.category.nlist_ready = true ∧ (0 : ℝ) < st6.binsize ∧
    RDF.do_update st6 u5 = .ok st6 ∧
    (st6.hist.length = st6.hist.length ∧
      ∀ b, b < st6.hist.length →
        st6.hist.getD b 0 = st6.hist.getD b 0 +
          ((List.range u5.n).map
            (rdf_claim_contrib st6.category u5 st6.binsize st6.mask1 st6.mask2 b)).sum) :=
  ⟨rfl, by norm_num [st6], rfl, c6_rdf_histogram st6 u5 st6 rfl (by norm_num [st6]) rfl⟩

/-- For a ready category the CoordNumber particle loop never raises,
adding the counted pairs and the contributing-particle count to its
accumulator. -/
theorem cn_loop_ok (cat : CatState) (u : Frame) (r0 : ℝ) (m1 m2 : List Bool)
    (hready : cat.nlist_ready = true) :
    ∀ (idx : List ℕ) (a c : ℕ),
      cn_loop cat u r0 m1 m2 idx (a, c)
        = .ok (a + (idx.map (cn_pair_count cat u r0 m1 m2)).sum,
            c + idx.countP fun i => m1.getD i false || m2.getD i false) := by
  intro idx
  induction idx with
  | nil => intro a c; simp [cn_loop]
  | cons i rest ih =>
    intro a c
    by_cases h1 : m1.getD i false = true
    · have hpick : pick_maskj m1 m2 i = some m2 := by
        unfold pick_maskj
        rw [if_pos h1]
      have hcp : cn_pair_count cat u r0 m1 m2 i
          = (nbr_vecs_list cat i u (some m2)).countP
              fun t => decide (i < t.2.2) && decide (t.2.1 < r0) := by
        unfold cn_pair_count
        rw [hpick]
      have hor : (m1.getD i false || m2.getD i false) = true := by
        rw [h1, Bool.true_or]
      simp only [cn_loop, hpick, generate_neighbor_vecs, hready, if_true]
      rw [ih]
      simp only [Except.ok.injEq, Prod.mk.injEq, List.map_cons, List.sum_cons,
        List.countP_cons, hcp, hor, if_true]
      constructor <;> omega
    · rw [Bool.not_eq_true] at h1
      by_cases h2 : m2.getD i false = true
      · have hpick : pick_maskj m1 m2 i = some m1 := by
          unfold pick_maskj
          rw [h1, if_neg (by simp), if_pos h2]
        have hcp : cn_pair_count cat u r0 m1 m2 i
            = (nbr_vecs_list cat i u (some m1)).countP
                fun t => decide (i < t.2.2) && decide (t.2.1 < r0) := by
          unfold cn_pair_count
          rw [hpick]
        have hor : (m1.getD i false || m2.getD i false) = true := by
          rw [h1, h2, Bool.false_or]
        simp only [cn_loop, hpick, generate_neighbor_vecs, hready, if_true]
        rw [ih]
        simp only [Except.ok.injEq, Prod.mk.injEq, List.map_cons, List.sum_cons,
          List.countP_cons, hcp, hor, if_true]
        constructor <;> omega
      · rw [Bool.not_eq_true] at h2
        have hpick : pick_maskj m1 m2 i = none := by
          unfold pick_maskj
          rw [h1, h2]
          simp
        have hcp : cn_pair_count cat u r0 m1 m2 i = 0 := by
          unfold cn_pair_count
          rw [hpick]
        have hor : (m1.getD i false || m2.getD i false) = false := by
          rw [h1, h2, Bool.false_or]
        simp only [cn_loop, hpick]
        rw [ih]
        simp only [Except.ok.injEq, Prod.mk.injEq, List.map_cons, List.sum_cons,
          List.countP_cons, hcp, hor, Nat.zero_add]
        constructor <;> simp

/-- C7.  Whenever `CoordNumber.do_update` completes on a frame, the stored
coordination number equals 2 times the number of counted pairs — yielded
neighbors `j` of a contributing particle `i` that pass the complementary
mask, satisfy `i < j`, and lie at minimum-image distance strictly below
`r0` — divided by the number of contributing particles (those in group 1 or
group 2). -/
theorem c7_coordination_number (st : CNState) (u : Frame) (st' : CNState)
    (hready : st.category.nlist_ready = true)
    (hup : CoordNumber.do_update st u = .ok st') :
    st'.cn = 2 * (cn_counted st.category u st.r0 st.mask1 st.mask2 : ℝ)
      / (cn_contributing st.mask1 st.mask2 u.n : ℝ) := by
  unfold CoordNumber.do_update at hup
  rw [cn_loop_ok st.category u st.r0 st.mask1 st.mask2 hready (List.range u.n) 0 0] at hup
  have hup2 : (if cn_contributing st.mask1 st.mask2 u.n = 0
      then (.error .zeroDivisionError : Except PyErr CNState)
      else .ok { st with cn := ((cn_counted st.category u st.r0 st.mask1 st.mask2 : ℝ)
          / (cn_contributing st.mask1 st.mask2 u.n : ℝ)) * 2 }) = .ok st' := by
    have hz : ∀ x : ℕ, 0 + x = x := Nat.zero_add
    simpa [cn_counted, cn_contributing, hz] using hup
  by_cases hc : cn_contributing st.mask1 st.mask2 u.n = 0
  · rw [if_pos hc] at hup2
    cases hup2
  · rw [if_neg hc] at hup2
    injection hup2 with hst
    subst hst
    show ((cn_counted st.category u st.r0 st.mask1 st.mask2 : ℝ)
      / (cn_contributing st.mask1 st.mask2 u.n : ℝ)) * 2 = _
    ring

/-- C7, witness at a 1-particle frame whose particle contributes but has no
neighbors: 0 counted pairs, 1 contributing particle, coordination number
2 * 0 / 1. -/
theorem c7_witness :
    st7.category.nlist_ready = true ∧
    CoordNumber.do_update st7 u7 = .ok st7x ∧
    st7x.cn = 2 * (cn_counted st7.category u7 st7.r0 st7.mask1 st7.mask2 : ℝ)
      / (cn_contributing st7.mask1 st7.mask2 u7.n : ℝ) :=
  ⟨rfl, rfl, c7_coordination_number st7 u7 st7x rfl rfl⟩
